import Mathlib

/-!
Verification development for the qkit magnetoconductance measurement script
(`src/qkit/measure/magnetoconductance/measurement_script.py`).

The Python code is shallowly embedded: Python floats become `ℚ`, numpy arrays
become `List ℚ`, Python dicts become association lists, exceptions become
`Except PyErr`, and log output is collected in a `List LogMsg`.
-/

/-- Python exceptions that the embedded code can raise. -/
inductive PyErr where
  | keyError
  | typeError
  | valueError
  | attributeError
  | zeroDivisionError
deriving DecidableEq

/-- A log line emitted through `log.error` / `log.warning` / `log.info`. -/
inductive LogMsg where
  | error (msg : String)
  | warning (msg : String)
  | info (msg : String)
deriving DecidableEq

/-- Python values as they appear in the script's keyword-argument dicts. -/
inductive PyVal where
  | num (q : ℚ)
  | boolean (b : Bool)
  | str (s : String)
  | list (xs : List PyVal)
  | dict (kvs : List (String × PyVal))

/-- `isinstance(val, (int, float))`: `True` for ints, floats and bools;
the numeric value of `True` is 1 and of `False` is 0. -/
def isinstance_num : PyVal → Option ℚ
  | .num q => some q
  | .boolean b => some (if b then 1 else 0)
  | _ => none

/-- `isinstance(val, dict)`. -/
def PyVal.isDict : PyVal → Bool
  | .dict _ => true
  | _ => false

/-- The entries of a dict value (empty for non-dicts; used only under
an `isDict` guard). -/
def PyVal.asDict : PyVal → List (String × PyVal)
  | .dict kvs => kvs
  | _ => []

/-- `self.valid_step_vars` (line 40). -/
def valid_step_vars : List String := ["vg", "vd", "N", "bt", "phi", "psi", "theta"]

/-- `self.valid_sweep_vars` (line 41). -/
def valid_sweep_vars : List String := ["vg", "vd", "bt", "bp", "phi", "psi", "theta"]

/-- `self.valid_wp_mode` (line 42). -/
def valid_wp_mode : List String := ["normal", "sweep"]

/-- `self.valid_measure_mode` (line 43). -/
def valid_measure_mode : List String := ["static", "sweep"]

/-- `self.valid_inputs` (line 44). -/
def valid_inputs : List String := ["raw", "inph", "quad"]

/-- `self.valid_traces` (line 45). -/
def valid_traces : List String := ["trace", "retrace", "difference"]

/-- `self.valid_calc` (line 46). -/
def valid_calc : List String := ["amp", "phase"]

/-- `self.valid_analysis` (line 47). -/
def valid_analysis : List String := ["polarplot", "histogramm"]

/-- `self.max_rate_config` (line 48): rate in T(/V) per second, 0.1 for each
listed channel. -/
def max_rate_table : List (String × ℚ) :=
  [("bx", 1/10), ("by", 1/10), ("bz", 1/10), ("bp", 1/10), ("bt", 1/10),
   ("vg", 1/10), ("vd", 1/10)]

/-- Dictionary lookup in `self.max_rate_config`; `none` models a `KeyError`
at the call site. -/
def max_rate_config (k : String) : Option ℚ := max_rate_table.lookup k

/-- `self._sweep` (lines 60-61). -/
structure SweepState where
  var_name : Option String
  start : Option ℚ
  stop : Option ℚ
  unit : Option String
  rate : Option ℚ
  duration : Option ℚ
  values : Option (List ℚ)
deriving DecidableEq

/-- The initial `self._sweep` dict: every field `None`. -/
def init_sweep : SweepState :=
  { var_name := none, start := none, stop := none, unit := none,
    rate := none, duration := none, values := none }

/-- `self._step` (lines 62-63). -/
structure StepState where
  var_name : Option String
  start : Option ℚ
  stop : Option ℚ
  unit : Option String
  step_size : Option ℚ
  values : Option (List ℚ)
deriving DecidableEq

/-- The initial `self._step` dict: every field `None`. -/
def init_step : StepState :=
  { var_name := none, start := none, stop := none, unit := none,
    step_size := none, values := none }

/-- The keys of the `self._sweep` dict. -/
def sweep_keys : List String :=
  ["var_name", "start", "stop", "unit", "rate", "duration", "values"]

/-- The keys of the `self._step` dict. -/
def step_keys : List String :=
  ["var_name", "start", "stop", "unit", "step_size", "values"]

/-- One iteration of the `for key,val in kwargs.items()` loop of `set_sweep`
(lines 500-512): `var_name` is accepted only from the sweep allowlist,
`start`/`stop` only for numeric values; other sweep keys fall through the
`match` with no effect. -/
def set_sweep_field (a : SweepState × List LogMsg) (kv : String × PyVal) :
    SweepState × List LogMsg :=
  if kv.1 ∈ sweep_keys then
    match kv.1, kv.2 with
    | "var_name", v =>
        match v with
        | .str s =>
            if s ∈ valid_sweep_vars then ({ a.1 with var_name := some s }, a.2)
            else (a.1, a.2 ++ [.error "is no valid value for sweep_var_name!"])
        | _ => (a.1, a.2 ++ [.error "is no valid value for sweep_var_name!"])
    | "start", v =>
        match isinstance_num v with
        | some q => ({ a.1 with start := some q }, a.2)
        | none => (a.1, a.2 ++ [.error "Value of start must be float or integer!"])
    | "stop", v =>
        match isinstance_num v with
        | some q => ({ a.1 with stop := some q }, a.2)
        | none => (a.1, a.2 ++ [.error "Value of stop must be float or integer!"])
    | _, _ => a
  else a

/-- Warning text of line 518. -/
def rate_warning_msg : LogMsg :=
  .warning "Rate is not valid! Set rate to max rate"

/-- `set_sweep` (lines 498-518): runs the field loop, then — when a `rate`
entry was passed and `var_name` is set — compares the requested rate against
`self.max_rate_config[var_name]` (an unguarded dict lookup: a missing key is
a `KeyError`); a requested rate at least the table value is stored as given,
a smaller one is replaced by the table value with a warning. -/
def set_sweep (sw : SweepState) (kwargs : List (String × PyVal)) :
    Except PyErr (SweepState × List LogMsg) :=
  let a := kwargs.foldl set_sweep_field (sw, [])
  match kwargs.lookup "rate", a.1.var_name with
  | some rv, some name =>
      match max_rate_config name with
      | none => .error .keyError
      | some m =>
          match isinstance_num rv with
          | none => .error .typeError
          | some r =>
              if m ≤ r then .ok ({ a.1 with rate := some r }, a.2)
              else .ok ({ a.1 with rate := some m }, a.2 ++ [rate_warning_msg])
  | _, _ => .ok a

/-- One iteration of the `for key,val in kwargs.items()` loop of `set_step`
(lines 520-534): `var_name` from the step allowlist, `start`/`stop`/`step_size`
numeric; other step keys fall through the `match` with no effect. -/
def set_step_field (a : StepState × List LogMsg) (kv : String × PyVal) :
    StepState × List LogMsg :=
  if kv.1 ∈ step_keys then
    match kv.1, kv.2 with
    | "var_name", v =>
        match v with
        | .str s =>
            if s ∈ valid_step_vars then ({ a.1 with var_name := some s }, a.2)
            else (a.1, a.2 ++ [.error "is no valid value for step_var_name!"])
        | _ => (a.1, a.2 ++ [.error "is no valid value for step_var_name!"])
    | "start", v =>
        match isinstance_num v with
        | some q => ({ a.1 with start := some q }, a.2)
        | none => (a.1, a.2 ++ [.error "Value of start must be float or integer!"])
    | "stop", v =>
        match isinstance_num v with
        | some q => ({ a.1 with stop := some q }, a.2)
        | none => (a.1, a.2 ++ [.error "Value of stop must be float or integer!"])
    | "step_size", v =>
        match isinstance_num v with
        | some q => ({ a.1 with step_size := some q }, a.2)
        | none => (a.1, a.2 ++ [.error "Value of step_size must be float or integer!"])
    | _, _ => a
  else a

/-- `set_step` (lines 520-534). -/
def set_step (st : StepState) (kwargs : List (String × PyVal)) :
    StepState × List LogMsg :=
  kwargs.foldl set_step_field (st, [])

/-- Python's built-in `round`: round half to even (banker's rounding). -/
def pythonRound (q : ℚ) : ℤ :=
  let f := ⌊q⌋
  let r := q - f
  if r < 1/2 then f
  else if 1/2 < r then f + 1
  else if f % 2 = 0 then f else f + 1

/-- `np.linspace(start, stop, num)` with the default `endpoint=True`:
`num` evenly spaced values; for `num ≥ 2` the spacing is
`(stop - start) / (num - 1)`, for `num = 1` the single value is `start`. -/
def linspace (a b : ℚ) (num : ℕ) : List ℚ :=
  if num = 0 then []
  else if num = 1 then [a]
  else (List.range num).map (fun i : ℕ => a + (i : ℚ) * (b - a) / ((num : ℚ) - 1))

/-- `np.arange(start, stop, step)` for `step ≠ 0`: the values
`start + k * step` for `0 ≤ k < ⌈(stop - start) / step⌉`. -/
def arange (a b s : ℚ) : List ℚ :=
  (List.range (⌈(b - a) / s⌉.toNat)).map (fun k : ℕ => a + (k : ℚ) * s)

/-- `generate_sweep` (lines 384-392): with `start`, `stop` and `rate` all set it
stores `duration = (stop - start) / rate` and
`values = np.linspace(start, stop, round(duration * sample_rate))`; a zero rate
is a float `ZeroDivisionError`, a negative sample count is the `ValueError`
`np.linspace` raises; with any of the three inputs missing it only logs an
error and leaves the sweep dict as it is. -/
def generate_sweep (sw : SweepState) (sample_rate : ℚ) :
    Except PyErr (SweepState × List LogMsg) :=
  match sw.start, sw.stop, sw.rate with
  | some a, some b, some r =>
      if r = 0 then .error .zeroDivisionError
      else
        let dur := (b - a) / r
        let n := pythonRound (dur * sample_rate)
        if n < 0 then .error .valueError
        else .ok ({ sw with duration := some dur, values := some (linspace a b n.toNat) }, [])
  | _, _, _ => .ok (sw, [.error "Couldnt generate sweep value list, inputs missing!"])

/-- `generate_steps` (lines 374-382): with `start`, `stop` and `step_size` all
set it stores `values = np.arange(start, stop, step_size)` and sets
`self.dim = 2`; a zero step size is the error `np.arange` raises; otherwise it
logs and sets `self.dim = 1`. The returned `ℕ` is `self.dim`. -/
def generate_steps (st : StepState) :
    Except PyErr (StepState × ℕ × List LogMsg) :=
  match st.start, st.stop, st.step_size with
  | some a, some b, some s =>
      if s = 0 then .error .zeroDivisionError
      else .ok ({ st with values := some (arange a b s) }, 2, [])
  | _, _, _ =>
      .ok (st, 1, [.info "Couldnt generate step value list, inputs missing!"])

/-- The accumulation step of the duration loops of `wp_setter` (lines 362-366)
and `start_sweep` (lines 200-204): keep the larger duration. -/
def max_duration_step (md d : ℚ) : ℚ := if md < d then d else md

/-- The duration loop of `wp_setter` (lines 362-366): starting from 0, for
every output channel of the target working point compute
`abs(target - source) / rate_table[channel]` and keep the maximum; a channel
missing from the rate table is an unguarded `KeyError`.  `rate_table` stands
for `self.max_rate_config`, `outs` for `self.wp_start.outs.items()` and
`temp` for `temp_wp_outs`. -/
def ramp_min_duration_from (rate_table : String → Option ℚ)
    (outs : List (String × ℚ)) (temp : String → ℚ) (a : ℚ) : Except PyErr ℚ :=
  outs.foldlM (fun md kv =>
    match rate_table kv.1 with
    | none => .error .keyError
    | some rate => .ok (max_duration_step md (|kv.2 - temp kv.1| / rate))) a

/-- The duration loop of `wp_setter`, started from `min_duration = 0`
(line 362). -/
def ramp_min_duration (rate_table : String → Option ℚ)
    (outs : List (String × ℚ)) (temp : String → ℚ) : Except PyErr ℚ :=
  ramp_min_duration_from rate_table outs temp 0

/-- The per-channel duration `abs(target - source) / rate`; the `getD 1`
default is never used when the channel has a table entry. -/
def chan_duration (rate_table : String → Option ℚ) (temp : String → ℚ)
    (kv : String × ℚ) : ℚ :=
  |kv.2 - temp kv.1| / (rate_table kv.1).getD 1

/-- The pure value of the duration loop from an arbitrary accumulator, used to
reason about `ramp_min_duration` when every channel has a table entry. -/
def ramp_fold (rate_table : String → Option ℚ) (temp : String → ℚ)
    (outs : List (String × ℚ)) (a : ℚ) : ℚ :=
  outs.foldl (fun md kv => max_duration_step md (chan_duration rate_table temp kv)) a

/-- Warning text of line 370. -/
def duration_warning_msg : LogMsg :=
  .warning "Fixed ramp duration is not safe, duration was set to minimal possible duration!"

/-- Lines 367-372 of `wp_setter`: a missing caller duration becomes the
computed minimum; a caller duration below the minimum is replaced by the
minimum with a warning. -/
def resolve_dt (dt : Option ℚ) (min_duration : ℚ) : ℚ × List LogMsg :=
  match dt with
  | none => (min_duration, [])
  | some d =>
      if d < min_duration then (min_duration, [duration_warning_msg])
      else (d, [])

/-- The value bound to `tr`, `rt` or `diff` in `sweep_measure` (lines 239-255):
either the initial Python list `[]` or a numpy array. -/
inductive Buf where
  | empt
  | arr (xs : List ℚ)
deriving DecidableEq

/-- The samples held by a buffer (`[]` for the initial Python list). -/
def Buf.data : Buf → List ℚ
  | .empt => []
  | .arr xs => xs

/-- Python truthiness of a buffer as the interpreter evaluates it: the initial
list `[]` is falsy; `bool()` of a numpy array is its single element's
non-zeroness when it has exactly one element and otherwise raises
`ValueError: The truth value of an array with more than one element is
ambiguous`. -/
def Buf.truthy : Buf → Except PyErr Bool
  | .empt => .ok false
  | .arr xs =>
      match xs with
      | [x] => .ok (decide (x ≠ 0))
      | _ => .error .valueError

/-- Elementwise subtraction of two equal-length numpy arrays
(`diff = rt - tr`, line 247). -/
def np_sub (xs ys : List ℚ) : List ℚ := List.zipWith (fun x y => x - y) xs ys

/-- The body of the first `for key,val in self._data['temp_save'].items()`
loop of `sweep_measure` (lines 238-255) for one raw-input category `c`
(`inph`, `quad` or `raw`) with a non-empty requested variant list `val`:

* `tr` is the truncated trace array when `'trace' ∈ val`;
* `rt` is the flipped truncated retrace array when `'retrace' ∈ val` — with
  retrace disabled the `retrace` variable is still `None` and subscripting it
  is a `TypeError`;
* when `'difference' ∈ val` the code evaluates `if tr and rt:` (numpy
  truthiness of both arrays) and computes `diff = rt - tr` only when both are
  truthy; the `else` branch is the statement `assert ValueError`, which
  asserts the (always truthy) exception class and so is a no-op;
* finally `if tr:` / `if rt:` / `if diff:` guard the insertions into
  `values_dict`, again via numpy truthiness.

`retrace_flag` is `self._data['measure']['retrace']`, `traceData`/`retraceData`
are the raw channel arrays returned by the instrument and `sr` is the computed
`sample_rate` sample count. -/
def process_input_category (retrace_flag : Bool) (c : String) (val : List String)
    (traceData retraceData : String → List ℚ) (sr : ℕ) :
    Except PyErr (List (String × List ℚ)) := do
  let tr : Buf := if "trace" ∈ val then .arr ((traceData c).take sr) else .empt
  let rt : Buf ←
    if "retrace" ∈ val then
      if retrace_flag then pure (Buf.arr (((retraceData c).take sr).reverse))
      else .error .typeError
    else pure Buf.empt
  let diff : Buf ←
    if "difference" ∈ val then do
      let bt ← tr.truthy
      if bt then do
        let br ← rt.truthy
        if br then pure (Buf.arr (np_sub rt.data tr.data))
        else pure Buf.empt
      else pure Buf.empt
    else pure Buf.empt
  let bt ← tr.truthy
  let acc1 : List (String × List ℚ) :=
    if bt then [(c ++ "_trace", tr.data)] else []
  let br ← rt.truthy
  let acc2 := acc1 ++ (if br then [(c ++ "_retrace", rt.data)] else [])
  let bd ← diff.truthy
  pure (acc2 ++ (if bd then [(c ++ "_difference", diff.data)] else []))

/-- The `temp_save` section of `self._data` (lines 68-69): requested variant
lists per category.  Only `inph`, `quad` and `raw` pass the
`if key in self.valid_inputs` filter of the first loop; `amp` and `phase`
are handled by the later calc loop. -/
structure TempSave where
  inph : List String
  quad : List String
  raw : List String
  amp : List String
  phase : List String
deriving DecidableEq

/-- Lines 228-255 of `sweep_measure`: the forward
`self.anna.sweep_measure(self.wp_stop.outs, ...)` hardware command is issued
first and unconditionally; the reverse command follows immediately when the
retrace flag is set; only then does the raw-input loop run.  The result pairs
the ordered list of hardware commands already issued with the outcome of the
raw-input loop (skipping categories whose variant list is empty, as
`if val:` does for a Python list). -/
def sweep_measure_inputs_phase (retrace_flag : Bool) (ts : TempSave)
    (traceData retraceData : String → List ℚ) (sr : ℕ) :
    List String × Except PyErr (List (String × List ℚ)) :=
  let cmds := ["anna.sweep_measure wp_stop.outs"] ++
    (if retrace_flag then ["anna.sweep_measure wp_start.outs"] else [])
  let res : Except PyErr (List (String × List ℚ)) := do
    let v1 ← if ts.inph = [] then pure [] else
      process_input_category retrace_flag "inph" ts.inph traceData retraceData sr
    let v2 ← if ts.quad = [] then pure [] else
      process_input_category retrace_flag "quad" ts.quad traceData retraceData sr
    let v3 ← if ts.raw = [] then pure [] else
      process_input_category retrace_flag "raw" ts.raw traceData retraceData sr
    pure (v1 ++ v2 ++ v3)
  (cmds, res)

/-- `self._sph` (line 59). -/
structure SphState where
  theta : ℚ
  phi : ℚ
  psi : ℚ
  bp : ℚ
  bt : ℚ
deriving DecidableEq

/-- The keys of the `self._sph` dict. -/
def sph_keys : List String := ["theta", "phi", "psi", "bp", "bt"]

/-- Field update of `self._sph` by key. -/
def SphState.update (s : SphState) (k : String) (q : ℚ) : SphState :=
  match k with
  | "theta" => { s with theta := q }
  | "phi" => { s with phi := q }
  | "psi" => { s with psi := q }
  | "bp" => { s with bp := q }
  | "bt" => { s with bt := q }
  | _ => s

/-- `set_sph` (lines 584-591). -/
def set_sph (s : SphState) (kwargs : List (String × PyVal)) :
    SphState × List LogMsg :=
  kwargs.foldl (fun a kv =>
    if kv.1 ∈ sph_keys then
      match isinstance_num kv.2 with
      | some q => (a.1.update kv.1 q, a.2)
      | none => (a.1, a.2 ++ [.error "Value must be float or integer!"])
    else a) (s, [])

/-- `self._modes` (line 64). -/
structure ModesState where
  wp : Option String
  measure : Option String
deriving DecidableEq

/-- `set_modes` (lines 536-543): the mode value must sit in the allowlist
`self.valids[key]` (`wp` or `measure`). -/
def set_modes (m : ModesState) (kwargs : List (String × PyVal)) :
    ModesState × List LogMsg :=
  kwargs.foldl (fun a kv =>
    if kv.1 ∈ ["wp", "measure"] then
      match kv.2 with
      | .str s =>
          if s ∈ (if kv.1 = "wp" then valid_wp_mode else valid_measure_mode) then
            (if kv.1 = "wp" then { a.1 with wp := some s } else { a.1 with measure := some s }, a.2)
          else (a.1, a.2 ++ [.error "is no valid mode!"])
      | _ => (a.1, a.2 ++ [.error "is no valid mode!"])
    else a) (m, [])

/-- `self._volts` (line 65). -/
structure VoltsState where
  vd : Option ℚ
  vg : Option ℚ
deriving DecidableEq

/-- `set_volts` (lines 545-552). -/
def set_volts (v : VoltsState) (kwargs : List (String × PyVal)) :
    VoltsState × List LogMsg :=
  kwargs.foldl (fun a kv =>
    if kv.1 ∈ ["vd", "vg"] then
      match isinstance_num kv.2 with
      | some q =>
          (if kv.1 = "vd" then { a.1 with vd := some q } else { a.1 with vg := some q }, a.2)
      | none => (a.1, a.2 ++ [.error "Value must be float or integer!"])
    else a) (v, [])

/-- `self._lockin` (line 66): `sample_rate` starts at `500e3` and is only ever
overwritten with numbers, so it is kept non-optional. -/
structure LockinState where
  freq : Option ℚ
  amp : Option ℚ
  tao : Option ℚ
  init_time : Option ℚ
  sample_rate : ℚ
deriving DecidableEq

/-- Field update of `self._lockin` by key. -/
def LockinState.update (l : LockinState) (k : String) (q : ℚ) : LockinState :=
  match k with
  | "freq" => { l with freq := some q }
  | "amp" => { l with amp := some q }
  | "tao" => { l with tao := some q }
  | "init_time" => { l with init_time := some q }
  | "sample_rate" => { l with sample_rate := q }
  | _ => l

/-- `set_lockin` (lines 554-561). -/
def set_lockin (l : LockinState) (kwargs : List (String × PyVal)) :
    LockinState × List LogMsg :=
  kwargs.foldl (fun a kv =>
    if kv.1 ∈ ["freq", "amp", "tao", "init_time", "sample_rate"] then
      match isinstance_num kv.2 with
      | some q => (a.1.update kv.1 q, a.2)
      | none => (a.1, a.2 ++ [.error "Value must be float or integer!"])
    else a) (l, [])

/-- `set_analysis` (lines 487-492): append every passed value that sits in the
analysis allowlist; anything else is dropped without a log line. -/
def set_analysis (al : List String) (kwargs : List (String × PyVal)) :
    List String :=
  kwargs.foldl (fun acc kv =>
    match kv.2 with
    | .str s => if s ∈ valid_analysis then acc ++ [s] else acc
    | _ => acc) al

/-- `set_analysis_params` (lines 494-496): `kwargs.values()[0]` subscripts a
`dict_values` view, which always raises `TypeError`. -/
def set_analysis_params (kwargs : List (String × PyVal)) : Except PyErr PyVal :=
  match kwargs with
  | _ => .error .typeError

/-- `set_adwin_bootload` (lines 461-467): only a `bool` value is accepted
(`kwargs.get` yields `None` when the key is absent, which is not a bool). -/
def set_adwin_bootload (b : Bool) (kwargs : List (String × PyVal)) :
    Bool × List LogMsg :=
  match kwargs.lookup "adwin_bootload" with
  | some (.boolean v) => (v, [])
  | _ => (b, [.error "Bootload value only allows booleans!"])

/-- `set_hard_config` (lines 469-476): a dict value replaces the config with a
warning; anything else reaches `assert ValueError`, which asserts the truthy
exception class and is a no-op (no log, no exception, no mutation). -/
def set_hard_config (hc : PyVal) (kwargs : List (String × PyVal)) :
    PyVal × List LogMsg :=
  match kwargs.lookup "hard_config" with
  | some (.dict d) => (.dict d, [.warning "Hard config for Adwin was changed!"])
  | _ => (hc, [])

/-- `set_soft_config` (lines 478-485): same shape as `set_hard_config`. -/
def set_soft_config (sc : PyVal) (kwargs : List (String × PyVal)) :
    PyVal × List LogMsg :=
  match kwargs.lookup "soft_config" with
  | some (.dict d) => (.dict d, [.warning "Soft config for adwin was changed!"])
  | _ => (sc, [])

/-- `d.keys()` of an embedded Python dict. -/
def pyKeys (l : List (String × PyVal)) : List String := l.map Prod.fst

/-- `d[k]` of an embedded Python dict. -/
def pyGet (l : List (String × PyVal)) (k : String) : Option PyVal := l.lookup k

/-- In-place overwrite of an existing key of an embedded Python dict. -/
def pySet (l : List (String × PyVal)) (k : String) (v : PyVal) :
    List (String × PyVal) :=
  l.map (fun kv => if kv.1 = k then (k, v) else kv)

/-- `for x in v`: lists iterate their items, strings their characters;
numbers, booleans and the like raise `TypeError`. -/
def pyIterate : PyVal → Except PyErr (List PyVal)
  | .list xs => .ok xs
  | .str s => .ok (s.toList.map (fun c => PyVal.str c.toString))
  | _ => .error .typeError

/-- Repeated `cur.append(x)`: only lists have `append`; anything else is an
`AttributeError`. -/
def append_items (cur : PyVal) (xs : List PyVal) : Except PyErr PyVal :=
  match cur with
  | .list ys => .ok (.list (ys ++ xs))
  | _ => .error .attributeError

/-- Lines 569-578 of `set_data` for one second-level entry: a non-dict value
is iterated and appended to the stored list; a dict value walks one level
deeper, which requires the stored entry to be a dict as well
(`self._data[key][key2].keys()`). -/
def set_data_leaf (cur : PyVal) (val2 : PyVal) :
    Except PyErr (PyVal × List LogMsg) :=
  match val2 with
  | .dict kvs2 =>
      match cur with
      | .dict inner => do
          let p ← kvs2.foldlM (fun (acc : List (String × PyVal) × List LogMsg) kv3 =>
            if kv3.1 ∈ pyKeys acc.1 then do
              let xs ← pyIterate kv3.2
              let tgt ← append_items ((pyGet acc.1 kv3.1).getD (.list [])) xs
              pure (pySet acc.1 kv3.1 tgt, acc.2)
            else
              pure (acc.1, acc.2 ++ [.error "is not defined in vars of key_key2!"]))
            (inner, [])
          pure (.dict p.1, p.2)
      | _ => .error .attributeError
  | _ => do
      let xs ← pyIterate val2
      let cur2 ← append_items cur xs
      pure (cur2, [])

/-- `set_data` (lines 563-582): walk the two outer dict levels with membership
checks (logging unknown keys) and hand the leaves to `set_data_leaf`; a
non-dict where `.items()` or `.keys()` is needed raises `AttributeError`. -/
def set_data (d : PyVal) (kwargs : List (String × PyVal)) :
    Except PyErr (PyVal × List LogMsg) :=
  match d with
  | .dict top => do
      let p ← kwargs.foldlM (fun (acc : List (String × PyVal) × List LogMsg) kv =>
        if kv.1 ∈ pyKeys acc.1 then
          match kv.2 with
          | .dict items =>
              match (pyGet acc.1 kv.1).getD (.dict []) with
              | .dict secd => do
                  let p2 ← items.foldlM
                    (fun (acc2 : List (String × PyVal) × List LogMsg) kv2 =>
                      if kv2.1 ∈ pyKeys acc2.1 then do
                        let r ← set_data_leaf ((pyGet acc2.1 kv2.1).getD (.list [])) kv2.2
                        pure (pySet acc2.1 kv2.1 r.1, acc2.2 ++ r.2)
                      else pure (acc2.1, acc2.2 ++ [.error "is not defined in vars!"]))
                    (secd, [])
                  pure (pySet acc.1 kv.1 (.dict p2.1), acc.2 ++ p2.2)
              | _ => .error .attributeError
          | _ => .error .attributeError
        else pure (acc.1, acc.2 ++ [.error "is not defined!"])) (top, [])
      pure (.dict p.1, p.2)
  | _ => .error .attributeError

/-- The tracked configuration state of a `MeasurementScript` instance:
everything the setters of the dispatch table can reach. -/
structure ScriptState where
  analysis : List String
  analysis_params : PyVal
  sph : SphState
  sweep : SweepState
  step : StepState
  modes : ModesState
  volts : VoltsState
  lockin : LockinState
  data : PyVal
  hard_config : PyVal
  soft_config : PyVal
  adwin_bootload : Bool

/-- The keys of `self.set_functions` (lines 74-78). -/
def set_function_keys : List String :=
  ["sph", "sweep", "step", "modes", "volts", "lockin", "data", "hard_config",
   "analysis", "soft_config", "adwin_bootload", "analysis_params"]

/-- `self.set_functions[key](**val)`: route a table key to its dedicated
setter.  The final catch-all arm is never reached because `set_one` dispatches
only keys of `set_function_keys`. -/
def apply_setter (s : ScriptState) (key : String)
    (kvs : List (String × PyVal)) : Except PyErr (ScriptState × List LogMsg) :=
  match key with
  | "sph" => let r := set_sph s.sph kvs; .ok ({ s with sph := r.1 }, r.2)
  | "sweep" => (set_sweep s.sweep kvs).map (fun r => ({ s with sweep := r.1 }, r.2))
  | "step" => let r := set_step s.step kvs; .ok ({ s with step := r.1 }, r.2)
  | "modes" => let r := set_modes s.modes kvs; .ok ({ s with modes := r.1 }, r.2)
  | "volts" => let r := set_volts s.volts kvs; .ok ({ s with volts := r.1 }, r.2)
  | "lockin" => let r := set_lockin s.lockin kvs; .ok ({ s with lockin := r.1 }, r.2)
  | "data" => (set_data s.data kvs).map (fun r => ({ s with data := r.1 }, r.2))
  | "hard_config" =>
      let r := set_hard_config s.hard_config kvs
      .ok ({ s with hard_config := r.1 }, r.2)
  | "analysis" => .ok ({ s with analysis := set_analysis s.analysis kvs }, [])
  | "soft_config" =>
      let r := set_soft_config s.soft_config kvs
      .ok ({ s with soft_config := r.1 }, r.2)
  | "adwin_bootload" =>
      let r := set_adwin_bootload s.adwin_bootload kvs
      .ok ({ s with adwin_bootload := r.1 }, r.2)
  | "analysis_params" =>
      (set_analysis_params kvs).map (fun p => ({ s with analysis_params := p }, []))
  | _ => .ok (s, [])

/-- One iteration of the `set_` loop (lines 453-459): a key of the dispatch
table whose value is a dict is routed to its setter; everything else — in
particular every unknown top-level key — is logged with `log.error` and
dropped without touching any state. -/
def set_one (s : ScriptState) (key : String) (val : PyVal) :
    Except PyErr (ScriptState × List LogMsg) :=
  if key ∈ set_function_keys ∧ val.isDict = true then apply_setter s key val.asDict
  else .ok (s, [.error "have no var called key of type val!"])

/-- `set_` (lines 453-459): fold `set_one` over the keyword arguments. -/
def set_ (s : ScriptState) (kwargs : List (String × PyVal)) :
    Except PyErr (ScriptState × List LogMsg) :=
  kwargs.foldlM (fun acc kv =>
    (set_one acc.1 kv.1 kv.2).map (fun r => (r.1, acc.2 ++ r.2))) (s, [])

/-- The category lists of one section of `self._data` (lines 68-73). -/
def init_data_section : PyVal :=
  .dict [("inph", .list []), ("quad", .list []), ("raw", .list []),
         ("amp", .list []), ("phase", .list [])]

/-- The initial `self._data` dict (lines 67-73). -/
def init_data : PyVal :=
  .dict [("measure", .dict [("retrace", .boolean false), ("inputs", .list [])]),
         ("temp_save", init_data_section),
         ("save", init_data_section),
         ("plot", init_data_section)]

/-- A concrete script state with the constructor defaults of lines 57-83; the
adwin hard and soft configs live in `default_adwin_config`, outside the
embedded module, and are represented by empty dicts here (no theorem depends
on their contents). -/
def sample_state : ScriptState :=
  { analysis := [], analysis_params := .dict [],
    sph := { theta := 0, phi := 0, psi := 0, bp := 0, bt := 0 },
    sweep := init_sweep, step := init_step,
    modes := { wp := none, measure := none },
    volts := { vd := none, vg := none },
    lockin := { freq := none, amp := none, tao := none, init_time := none,
                sample_rate := 500000 },
    data := init_data, hard_config := .dict [], soft_config := .dict [],
    adwin_bootload := false }

/-! ## Helper lemmas -/

theorem max_duration_step_eq_max (md d : ℚ) : max_duration_step md d = max md d := by
  unfold max_duration_step
  rcases lt_or_ge md d with h | h
  · rw [if_pos h, max_eq_right h.le]
  · rw [if_neg (not_lt.mpr h), max_eq_left h]

theorem le_ramp_fold (tbl : String → Option ℚ) (temp : String → ℚ) :
    ∀ (outs : List (String × ℚ)) (a : ℚ), a ≤ ramp_fold tbl temp outs a := by
  intro outs
  induction outs with
  | nil => intro a; simp [ramp_fold]
  | cons kv t ih =>
      intro a
      have h1 : a ≤ max_duration_step a (chan_duration tbl temp kv) := by
        rw [max_duration_step_eq_max]; exact le_max_left _ _
      exact h1.trans (ih _)

theorem ramp_fold_ub (tbl : String → Option ℚ) (temp : String → ℚ) :
    ∀ (outs : List (String × ℚ)) (a : ℚ), ∀ kv ∈ outs,
      chan_duration tbl temp kv ≤ ramp_fold tbl temp outs a := by
  intro outs
  induction outs with
  | nil => intro a kv h; simp at h
  | cons hd t ih =>
      intro a kv hmem
      rcases List.mem_cons.mp hmem with h | h
      · subst h
        have h1 : chan_duration tbl temp kv ≤
            max_duration_step a (chan_duration tbl temp kv) := by
          rw [max_duration_step_eq_max]; exact le_max_right _ _
        exact h1.trans (le_ramp_fold tbl temp t _)
      · exact ih _ kv h

theorem ramp_fold_attained (tbl : String → Option ℚ) (temp : String → ℚ) :
    ∀ (outs : List (String × ℚ)) (a : ℚ),
      ramp_fold tbl temp outs a = a ∨
      ∃ kv ∈ outs, ramp_fold tbl temp outs a = chan_duration tbl temp kv := by
  intro outs
  induction outs with
  | nil => intro a; left; rfl
  | cons hd t ih =>
      intro a
      have hstep : ramp_fold tbl temp (hd :: t) a =
          ramp_fold tbl temp t (max_duration_step a (chan_duration tbl temp hd)) := rfl
      rcases ih (max_duration_step a (chan_duration tbl temp hd)) with h | ⟨kv, hkv, he⟩
      · rw [hstep, h]
        unfold max_duration_step
        split
        · right; exact ⟨hd, List.mem_cons_self _ _, rfl⟩
        · left; rfl
      · right
        exact ⟨kv, List.mem_cons_of_mem _ hkv, by rw [hstep, he]⟩

theorem ramp_min_duration_from_eq_fold (tbl : String → Option ℚ) (temp : String → ℚ) :
    ∀ (outs : List (String × ℚ)) (a : ℚ),
      (∀ kv ∈ outs, (tbl kv.1).isSome) →
      ramp_min_duration_from tbl outs temp a =
        Except.ok (ramp_fold tbl temp outs a) := by
  intro outs
  induction outs with
  | nil => intro a _; rfl
  | cons hd t ih =>
      intro a h
      obtain ⟨rate, hrate⟩ := Option.isSome_iff_exists.mp (h hd (List.mem_cons_self _ _))
      have hchan : chan_duration tbl temp hd = |hd.2 - temp hd.1| / rate := by
        unfold chan_duration; rw [hrate]; rfl
      have hstep : ramp_fold tbl temp (hd :: t) a =
          ramp_fold tbl temp t (max_duration_step a (chan_duration tbl temp hd)) := rfl
      have ht := ih (max_duration_step a (chan_duration tbl temp hd))
        (fun kv hkv => h kv (List.mem_cons_of_mem _ hkv))
      unfold ramp_min_duration_from at ht ⊢
      rw [List.foldlM_cons, hrate, hstep, hchan]
      rw [hchan] at ht
      exact ht

/-! ## C3: ramp duration policy of `wp_setter` -/

/-- C3: for every ramp between two working points whose channels all carry a
(positive) maximum rate, the resolved minimum duration returned by the
`wp_setter` loop is the maximum over output channels of
`abs(target - source) / max_rate[channel]` (it bounds every channel's duration
and is attained on some channel); a caller passing no duration gets exactly
this minimum, a caller passing a smaller duration gets the minimum together
with a warning, and the issued duration is never below the minimum. -/
theorem wp_setter_duration_policy (rate_table : String → Option ℚ)
    (outs : List (String × ℚ)) (temp : String → ℚ)
    (h : ∀ kv ∈ outs, ∃ m, rate_table kv.1 = some m ∧ 0 < m)
    (hne : outs ≠ []) :
    ∃ md, ramp_min_duration rate_table outs temp = .ok md ∧
      (∀ kv ∈ outs, ∀ m, rate_table kv.1 = some m → |kv.2 - temp kv.1| / m ≤ md) ∧
      (∃ kv ∈ outs, ∃ m, rate_table kv.1 = some m ∧ md = |kv.2 - temp kv.1| / m) ∧
      resolve_dt none md = (md, []) ∧
      (∀ d, d < md → resolve_dt (some d) md = (md, [duration_warning_msg])) ∧
      (∀ d, md ≤ (resolve_dt (some d) md).1) := by
  have hsome : ∀ kv ∈ outs, (rate_table kv.1).isSome := by
    intro kv hkv
    obtain ⟨m, hm, _⟩ := h kv hkv
    rw [hm]; rfl
  have hchan : ∀ kv ∈ outs, ∀ m, rate_table kv.1 = some m →
      chan_duration rate_table temp kv = |kv.2 - temp kv.1| / m := by
    intro kv _ m hm
    unfold chan_duration; rw [hm]; rfl
  have hnn : ∀ kv ∈ outs, 0 ≤ chan_duration rate_table temp kv := by
    intro kv hkv
    obtain ⟨m, hm, hmpos⟩ := h kv hkv
    rw [hchan kv hkv m hm]
    exact div_nonneg (abs_nonneg _) hmpos.le
  refine ⟨ramp_fold rate_table temp outs 0,
    ramp_min_duration_from_eq_fold rate_table temp outs 0 hsome, ?_, ?_, rfl, ?_, ?_⟩
  · intro kv hkv m hm
    rw [← hchan kv hkv m hm]
    exact ramp_fold_ub rate_table temp outs 0 kv hkv
  · rcases ramp_fold_attained rate_table temp outs 0 with h0 | ⟨kv, hkv, he⟩
    · match outs, hne with
      | kv0 :: t, _ =>
        obtain ⟨m, hm, hmpos⟩ := h kv0 (List.mem_cons_self _ _)
        have hle := ramp_fold_ub rate_table temp (kv0 :: t) 0 kv0 (List.mem_cons_self _ _)
        have hge := hnn kv0 (List.mem_cons_self _ _)
        have hz : chan_duration rate_table temp kv0 = ramp_fold rate_table temp (kv0 :: t) 0 := by
          rw [h0] at hle ⊢
          exact le_antisymm hle hge
        exact ⟨kv0, List.mem_cons_self _ _, m, hm, by
          rw [← hz, hchan kv0 (List.mem_cons_self _ _) m hm]⟩
    · obtain ⟨m, hm, _⟩ := h kv hkv
      exact ⟨kv, hkv, m, hm, by rw [he, hchan kv hkv m hm]⟩
  · intro d hd
    simp only [resolve_dt]
    rw [if_pos hd]
  · intro d
    simp only [resolve_dt]
    rcases lt_or_ge d (ramp_fold rate_table temp outs 0) with hlt | hge
    · rw [if_pos hlt]
    · rw [if_neg (not_lt.mpr hge)]; exact hge

/-- Witness for C3 at the spec's example: a single channel `A`, source value 0,
target value 5, maximum rate 1 — the resolved duration is 5; a requested
duration of 3 is unsafe and replaced by 5 with a warning. -/
theorem wp_setter_duration_policy_witness :
    ∃ md, ramp_min_duration (fun k => if k = "A" then some 1 else none)
        [("A", 5)] (fun _ => 0) = .ok md ∧ md = 5 ∧
      resolve_dt none md = (md, []) ∧
      resolve_dt (some 3) md = (md, [duration_warning_msg]) := by
  obtain ⟨md, h1, _, _, h4, h5, _⟩ :=
    wp_setter_duration_policy (fun k => if k = "A" then some 1 else none)
      [("A", 5)] (fun _ => 0)
      (by
        intro kv hkv
        simp only [List.mem_singleton] at hkv
        subst hkv
        exact ⟨1, by norm_num, one_pos⟩)
      (by simp)
  have h2 : ramp_min_duration (fun k => if k = "A" then some 1 else none)
      [("A", 5)] (fun _ => 0) = .ok 5 := by
    unfold ramp_min_duration ramp_min_duration_from
    simp [List.foldlM, max_duration_step]
  rw [h2] at h1
  have hmd : md = 5 := (Except.ok.inj h1).symm
  exact ⟨md, by rw [h2, hmd], hmd, h4, h5 3 (by rw [hmd]; norm_num)⟩

/-! ## C4: sweep value generation -/

theorem linspace_length (a b : ℚ) (n : ℕ) : (linspace a b n).length = n := by
  unfold linspace
  split
  · simp [*]
  · split
    · simp [*]
    · simp

theorem linspace_head (a b : ℚ) (n : ℕ) (h : 1 ≤ n) :
    (linspace a b n).head? = some a := by
  unfold linspace
  rcases n with _ | m
  · omega
  · rcases m with _ | k
    · rfl
    · rw [if_neg (by omega), if_neg (by omega), List.range_succ_eq_map]
      simp

theorem linspace_last (a b : ℚ) (n : ℕ) (h : 2 ≤ n) :
    (linspace a b n).getLast? = some b := by
  obtain ⟨m, rfl⟩ : ∃ m, n = m + 2 := ⟨n - 2, by omega⟩
  unfold linspace
  rw [if_neg (by omega), if_neg (by omega), List.range_succ, List.map_append]
  rw [List.map_singleton, List.getLast?_concat]
  congr 1
  have h1 : ((m + 2 : ℕ) : ℚ) - 1 = (m + 1 : ℚ) := by push_cast; ring
  have h2 : ((m + 1 : ℕ) : ℚ) = (m + 1 : ℚ) := by push_cast; ring
  have h3 : ((m : ℚ) + 1) ≠ 0 := by positivity
  rw [h1, h2]
  field_simp

/-- C4 (amended): with `start`, `stop` and `rate` all set (nonzero rate,
nonnegative rounded sample count) `generate_sweep` stores
`duration = (stop - start) / rate` and exactly
`round(duration * sample_rate)` evenly spaced values; the first value is
`start` and the last is `stop` whenever that count is at least 2 — a count
of 0 or 1 yields `[]` or `[start]`, whose last element is not `stop` in
general.  With any of the three inputs missing the values stay unset and an
error is logged (non-fatal). -/
theorem generate_sweep_values (sw : SweepState) (sr : ℚ) :
    (sw.start = none ∨ sw.stop = none ∨ sw.rate = none →
      generate_sweep sw sr =
        .ok (sw, [.error "Couldnt generate sweep value list, inputs missing!"])) ∧
    (∀ a b r, sw.start = some a → sw.stop = some b → sw.rate = some r →
      r ≠ 0 → 0 ≤ pythonRound ((b - a) / r * sr) →
      ∃ vs, generate_sweep sw sr =
          .ok ({ sw with duration := some ((b - a) / r), values := some vs }, []) ∧
        vs.length = (pythonRound ((b - a) / r * sr)).toNat ∧
        (2 ≤ vs.length → vs.head? = some a ∧ vs.getLast? = some b)) := by
  obtain ⟨nv, ns, nt, nu, nr, nd, nvals⟩ := sw
  constructor
  · intro h
    rcases ns with _ | a <;> rcases nt with _ | b <;> rcases nr with _ | r <;>
      first
        | rfl
        | simp at h
  · intro a b r ha hb hr hr0 hn
    cases ha; cases hb; cases hr
    refine ⟨linspace a b (pythonRound ((b - a) / r * sr)).toNat, ?_,
      linspace_length _ _ _, ?_⟩
    · simp only [generate_sweep]
      rw [if_neg hr0, if_neg (not_lt.mpr hn)]
    · intro h2
      rw [linspace_length] at h2
      exact ⟨linspace_head _ _ _ (by omega), linspace_last _ _ _ h2⟩

theorem except_bind_ok {e a b : Type} (x : a) (f : a → Except e b) :
    (Except.ok x >>= f : Except e b) = f x := rfl

theorem except_bind_error {e a b : Type} (err : e) (f : a → Except e b) :
    (Except.error err >>= f : Except e b) = Except.error err := rfl

/-- Witness for C4 at `start = 0`, `stop = 10`, `rate = 1`, `sample_rate = 1`:
10 values from 0 to 10 inclusive. -/
theorem generate_sweep_values_witness :
    ∃ vs, generate_sweep { init_sweep with
        start := some 0,
        stop := some 10,
        rate := some 1 } 1 =
      .ok ({ init_sweep with
        start := some 0,
        stop := some 10,
        rate := some 1,
        duration := some ((10 - 0) / 1),
        values := some vs }, []) ∧
      vs.length = 10 ∧ vs.head? = some 0 ∧ vs.getLast? = some 10 := by
  have hn : pythonRound (((10 : ℚ) - 0) / 1 * 1) = 10 := by
    unfold pythonRound
    norm_num
  obtain ⟨vs, h1, h2, h3⟩ :=
    (generate_sweep_values
      { init_sweep with start := some 0, stop := some 10, rate := some 1 } 1).2
      0 10 1 rfl rfl rfl (by norm_num) (by rw [hn]; norm_num)
  rw [hn] at h2
  have hlen : vs.length = 10 := by rw [h2]; rfl
  obtain ⟨hh, hl⟩ := h3 (by omega)
  exact ⟨vs, h1, hlen, hh, hl⟩

/-- Counterexample to C4 as stated: with `start = 0`, `stop = 1`,
`rate = 500000` and `sample_rate = 500000` all set, the rounded sample count is
1, `np.linspace` produces the single value `[0]`, and the last produced value
is 0, not the stop value 1 — the generated sweep does not reach `stop`. -/
theorem generate_sweep_single_value_cex :
    generate_sweep { init_sweep with
      start := some 0,
      stop := some 1,
      rate := some 500000 } 500000 =
      .ok ({ init_sweep with
        start := some 0,
        stop := some 1,
        rate := some 500000,
        duration := some (1 / 500000),
        values := some [0] }, []) ∧
    ([(0 : ℚ)].getLast? = some 0 ∧ ¬([(0 : ℚ)].getLast? = some 1)) := by
  constructor
  · have hn : pythonRound (((1 : ℚ) - 0) / 500000 * 500000) = 1 := by
      unfold pythonRound
      norm_num
    simp only [generate_sweep]
    rw [if_neg (by norm_num : ¬(500000 : ℚ) = 0), hn]
    norm_num [linspace]
  · norm_num

/-! ## C6 and C7: step value generation and dimensionality -/

theorem arange_elements (a b s : ℚ) :
    ∀ x ∈ arange a b s, ∃ k : ℕ, (k : ℤ) < ⌈(b - a) / s⌉ ∧ x = a + (k : ℚ) * s := by
  intro x hx
  unfold arange at hx
  obtain ⟨k, hk, rfl⟩ := List.mem_map.mp hx
  rw [List.mem_range] at hk
  exact ⟨k, Int.lt_toNat.mp hk, rfl⟩

theorem arange_lt_stop (a b s : ℚ) (hs : 0 < s) :
    ∀ x ∈ arange a b s, x < b := by
  intro x hx
  obtain ⟨k, hk, rfl⟩ := arange_elements a b s x hx
  have h1 : (k : ℚ) ≤ (⌈(b - a) / s⌉ : ℚ) - 1 := by
    have : (k : ℤ) ≤ ⌈(b - a) / s⌉ - 1 := by omega
    calc (k : ℚ) = ((k : ℤ) : ℚ) := by push_cast; ring
    _ ≤ ((⌈(b - a) / s⌉ - 1 : ℤ) : ℚ) := by exact_mod_cast this
    _ = (⌈(b - a) / s⌉ : ℚ) - 1 := by push_cast; ring
  have h2 : ((⌈(b - a) / s⌉ : ℚ) - 1) < (b - a) / s := by
    have := Int.ceil_lt_add_one ((b - a) / s)
    linarith
  have h3 : (k : ℚ) < (b - a) / s := lt_of_le_of_lt h1 h2
  have h4 : (k : ℚ) * s < b - a := (lt_div_iff₀ hs).mp h3
  linarith

theorem arange_head (a b s : ℚ) (hs : 0 < s) (hab : a < b) :
    (arange a b s).head? = some a := by
  have hpos : 0 < ⌈(b - a) / s⌉ := Int.ceil_pos.mpr (div_pos (by linarith) hs)
  have h1 : 1 ≤ ⌈(b - a) / s⌉.toNat := by omega
  obtain ⟨m, hm⟩ : ∃ m, ⌈(b - a) / s⌉.toNat = m + 1 := ⟨_, (Nat.succ_pred_eq_of_pos h1).symm⟩
  unfold arange
  rw [hm, List.range_succ_eq_map]
  simp

/-- C6: the measurement dimensionality set by `generate_steps` is 2 exactly
when `start`, `stop` and `step_size` were all non-null when the generation
ran, and 1 exactly otherwise; `generate_steps` is the only place `self.dim`
is assigned. -/
theorem generate_steps_dimension (st st2 : StepState) (dim : ℕ) (logs : List LogMsg)
    (h : generate_steps st = .ok (st2, dim, logs)) :
    (dim = 2 ↔ st.start ≠ none ∧ st.stop ≠ none ∧ st.step_size ≠ none) ∧
    (dim = 1 ↔ ¬(st.start ≠ none ∧ st.stop ≠ none ∧ st.step_size ≠ none)) := by
  obtain ⟨nv, ns, nt, nu, nz, nvals⟩ := st
  rcases ns with _ | a <;> rcases nt with _ | b <;> rcases nz with _ | s
  all_goals
    try
      (simp only [generate_steps, Except.ok.injEq, Prod.mk.injEq] at h
       obtain ⟨-, hdim, -⟩ := h
       subst hdim
       simp)
  -- remaining case: all three fields set
  rcases eq_or_ne s 0 with h0 | h0
  · subst h0
    simp [generate_steps] at h
  · simp only [generate_steps, if_neg h0, Except.ok.injEq, Prod.mk.injEq] at h
    obtain ⟨-, hdim, -⟩ := h
    subst hdim
    simp

/-- Witness for C6: with every step field missing, `generate_steps` reports
dimensionality 1. -/
theorem generate_steps_dimension_witness :
    ((1 : ℕ) = 2 ↔ init_step.start ≠ none ∧ init_step.stop ≠ none ∧
        init_step.step_size ≠ none) ∧
    ((1 : ℕ) = 1 ↔ ¬(init_step.start ≠ none ∧ init_step.stop ≠ none ∧
        init_step.step_size ≠ none)) :=
  generate_steps_dimension init_step init_step 1
    [.info "Couldnt generate step value list, inputs missing!"] rfl

/-- C7 (amended): with `start`, `stop` and `step_size` all set and the step
size positive, `generate_steps` produces the arithmetic values
`start + k * step_size` for `0 ≤ k < ⌈(stop - start) / step_size⌉`, each
strictly below `stop` (stop excluded), beginning at `start` when the range is
non-degenerate; for a negative step size `np.arange` counts down from `start`
instead and the values are not below `stop`. -/
theorem generate_steps_values (st : StepState) (a b s : ℚ)
    (ha : st.start = some a) (hb : st.stop = some b) (hs : st.step_size = some s)
    (hpos : 0 < s) :
    ∃ vs, generate_steps st = .ok ({ st with values := some vs }, 2, []) ∧
      vs = arange a b s ∧
      (∀ x ∈ vs, ∃ k : ℕ, (k : ℤ) < ⌈(b - a) / s⌉ ∧ x = a + (k : ℚ) * s) ∧
      (∀ x ∈ vs, x < b) ∧
      (a < b → vs.head? = some a) := by
  obtain ⟨nv, ns, nt, nu, nz, nvals⟩ := st
  cases ha; cases hb; cases hs
  refine ⟨arange a b s, ?_, rfl, arange_elements a b s,
    arange_lt_stop a b s hpos, arange_head a b s hpos⟩
  simp only [generate_steps]
  rw [if_neg hpos.ne']

/-- Witness for C7 at the spec example `start = 0`, `stop = 10`,
`step_size = 3`: exactly `[0, 3, 6, 9]`, stop excluded. -/
theorem generate_steps_values_witness :
    ∃ vs, generate_steps { init_step with
        start := some 0,
        stop := some 10,
        step_size := some 3 } = .ok ({ init_step with
        start := some 0,
        stop := some 10,
        step_size := some 3,
        values := some vs }, 2, []) ∧
      vs = [0, 3, 6, 9] ∧ (∀ x ∈ vs, x < 10) ∧ vs.head? = some 0 := by
  obtain ⟨vs, h1, h2, _, h4, h5⟩ :=
    generate_steps_values
      { init_step with start := some 0, stop := some 10, step_size := some 3 }
      0 10 3 rfl rfl rfl (by norm_num)
  have h6 : arange 0 10 3 = [0, 3, 6, 9] := by
    have hc : ⌈((10 : ℚ) - 0) / 3⌉ = (4 : ℤ) := by
      rw [Int.ceil_eq_iff]
      norm_num
    unfold arange
    rw [hc]
    have hr : List.range (Int.toNat 4) = [0, 1, 2, 3] := rfl
    rw [hr]
    norm_num
  exact ⟨vs, h1, h2.trans h6, h4, h5 (by norm_num)⟩

/-- Counterexample to C7 as stated: with `start = 10`, `stop = 0` and
`step_size = -3` all set, `generate_steps` produces `[10, 7, 4, 1]` — a
strictly descending sequence none of whose members is strictly below the stop
value 0, so "every produced value lies strictly below stop" fails for a
negative step size. -/
theorem generate_steps_negative_step_cex :
    generate_steps { init_step with
      start := some 10,
      stop := some 0,
      step_size := some (-3) } = .ok ({ init_step with
      start := some 10,
      stop := some 0,
      step_size := some (-3),
      values := some [10, 7, 4, 1] }, 2, []) ∧
    ¬(∀ x ∈ [(10 : ℚ), 7, 4, 1], x < 0) := by
  constructor
  · have hc : ⌈((0 : ℚ) - 10) / (-3)⌉ = (4 : ℤ) := by
      rw [Int.ceil_eq_iff]
      norm_num
    simp only [generate_steps]
    rw [if_neg (by norm_num : ¬(-3 : ℚ) = 0)]
    unfold arange
    rw [hc]
    have hr : List.range (Int.toNat 4) = [0, 1, 2, 3] := rfl
    rw [hr]
    norm_num
  · intro h
    have h10 := h 10 (by simp)
    norm_num at h10

/-! ## C2, C9, C10: the `set_sweep` rate policy -/

/-- C2: for a sweep variable with table maximum `m` and requested rate `r`,
`set_sweep` stores `r` unchanged (no log) when `r ≥ m`, and stores `m` with a
warning when `r < m` — the table value acts as a floor on the rate, never a
ceiling. -/
theorem set_sweep_rate_floor (sw : SweepState) (name : String) (m r : ℚ)
    (hvar : sw.var_name = some name) (hm : max_rate_config name = some m) :
    (m ≤ r → set_sweep sw [("rate", PyVal.num r)] =
      .ok ({ sw with rate := some r }, [])) ∧
    (r < m → set_sweep sw [("rate", PyVal.num r)] =
      .ok ({ sw with rate := some m }, [rate_warning_msg])) := by
  have hfold : List.foldl set_sweep_field (sw, ([] : List LogMsg))
      [("rate", PyVal.num r)] = (sw, []) := rfl
  have hlook : List.lookup "rate" [("rate", PyVal.num r)] =
      some (PyVal.num r) := rfl
  constructor <;> intro h
  · simp only [set_sweep, hfold, hlook, hvar, hm, isinstance_num]
    rw [if_pos h]
  · simp only [set_sweep, hfold, hlook, hvar, hm, isinstance_num]
    rw [if_neg (not_le.mpr h)]
    rw [List.nil_append]

/-- Witness for C2 on the variable `vg` (table maximum 0.1): rate 1 is kept,
rate 0.01 is clamped up to 0.1 with a warning. -/
theorem set_sweep_rate_floor_witness :
    set_sweep { init_sweep with var_name := some "vg" } [("rate", PyVal.num 1)] =
      .ok ({ init_sweep with var_name := some "vg", rate := some 1 }, []) ∧
    set_sweep { init_sweep with var_name := some "vg" }
        [("rate", PyVal.num (1/100))] =
      .ok ({ init_sweep with var_name := some "vg", rate := some (1/10) },
        [rate_warning_msg]) := by
  constructor
  · exact (set_sweep_rate_floor { init_sweep with var_name := some "vg" }
      "vg" (1/10) 1 rfl rfl).1 (by norm_num)
  · exact (set_sweep_rate_floor { init_sweep with var_name := some "vg" }
      "vg" (1/10) (1/100) rfl rfl).2 (by norm_num)

/-- C9: `phi`, `psi` and `theta` are in the sweep-variable allowlist but have
no entry in `max_rate_config`, so once such a variable is the sweep variable,
passing any `rate` entry to `set_sweep` hits the unguarded table lookup and
raises `KeyError` — the setter is not total over its own allowlist. -/
theorem set_sweep_missing_rate_key (v : String)
    (hv : v = "phi" ∨ v = "psi" ∨ v = "theta")
    (sw : SweepState) (hvar : sw.var_name = some v) (rv : PyVal) :
    v ∈ valid_sweep_vars ∧ max_rate_config v = none ∧
    set_sweep sw [("rate", rv)] = .error .keyError := by
  have hfold : List.foldl set_sweep_field (sw, ([] : List LogMsg))
      [("rate", rv)] = (sw, []) := rfl
  have hlook : List.lookup "rate" [("rate", rv)] = some rv := rfl
  rcases hv with rfl | rfl | rfl <;>
    exact ⟨by decide, rfl, by simp only [set_sweep, hfold, hlook, hvar]; rfl⟩

/-- Witness for C9 at `phi` with a numeric rate. -/
theorem set_sweep_missing_rate_key_witness :
    "phi" ∈ valid_sweep_vars ∧ max_rate_config "phi" = none ∧
    set_sweep { init_sweep with var_name := some "phi" }
        [("rate", PyVal.num 1)] = .error .keyError :=
  set_sweep_missing_rate_key "phi" (Or.inl rfl)
    { init_sweep with var_name := some "phi" } rfl (PyVal.num 1)

/-- C10: a `rate` entry passed while the sweep variable is still unset is
dropped silently — the state is returned unchanged and no log line is
emitted, for every supplied rate value. -/
theorem set_sweep_rate_discarded (sw : SweepState) (hvar : sw.var_name = none)
    (rv : PyVal) :
    set_sweep sw [("rate", rv)] = .ok (sw, []) := by
  have hfold : List.foldl set_sweep_field (sw, ([] : List LogMsg))
      [("rate", rv)] = (sw, []) := rfl
  have hlook : List.lookup "rate" [("rate", rv)] = some rv := rfl
  simp only [set_sweep, hfold, hlook, hvar]

/-- Witness for C10: a numeric rate of 5 against the initial sweep state. -/
theorem set_sweep_rate_discarded_witness :
    set_sweep init_sweep [("rate", PyVal.num 5)] = .ok (init_sweep, []) :=
  set_sweep_rate_discarded init_sweep rfl (PyVal.num 5)

/-! ## C1 and C5: the `sweep_measure` data pipeline -/

theorem except_map_error {e a b : Type} (err : e) (f : a → b) :
    (f <$> (Except.error err : Except e a)) = Except.error err := rfl

theorem except_map_ok {e a b : Type} (x : a) (f : a → b) :
    (f <$> (Except.ok x : Except e a)) = Except.ok (f x) := rfl

/-- C1 (the code, at the failing input): with the inph difference requested in
`temp_save` and retrace disabled, `sweep_measure` issues the forward
`anna.sweep_measure(wp_stop.outs, ...)` hardware ramp-and-sample command
FIRST, and only afterwards reaches the difference handling, where — instead
of a fatal precondition check — the numpy truthiness test `if tr and rt:` on
the 2-sample trace raises `ValueError`.  No `PreconditionError` is raised
before a hardware command: a hardware command has already been issued when
the run fails. -/
theorem sweep_measure_difference_after_hardware :
    sweep_measure_inputs_phase false
      { inph := ["trace", "difference"], quad := [], raw := [], amp := [], phase := [] }
      (fun _ => [1, 2]) (fun _ => []) 2 =
    (["anna.sweep_measure wp_stop.outs"], .error .valueError) := by
  simp [sweep_measure_inputs_phase, process_input_category, Buf.truthy, Buf.data,
    except_bind_ok, except_bind_error, except_map_ok, except_map_error]

/-- C5 (the code, at the spec's example): with trace `inph = [1, 2]` and an
acquired retrace whose flipped alignment is `[4, 6]`, the difference branch of
`sweep_measure` never produces `[3, 4]`: evaluating `if tr and rt:` applies
`bool()` to a 2-element numpy array — `ValueError: the truth value of an
array with more than one element is ambiguous`.  The subtraction the code
intends on line 247, `rt - tr`, would indeed give `[3, 4]` at these inputs. -/
theorem sweep_measure_difference_crashes :
    process_input_category true "inph" ["trace", "retrace", "difference"]
      (fun _ => [1, 2]) (fun _ => [6, 4]) 2 = .error .valueError ∧
    np_sub [4, 6] [1, 2] = [3, 4] := by
  constructor
  · simp [process_input_category, Buf.truthy, Buf.data,
      except_bind_ok, except_bind_error, except_map_ok, except_map_error]
  · norm_num [np_sub]

/-! ## C8: unknown top-level configuration keys -/

/-- C8: a top-level key outside the `set_functions` dispatch table never
raises: the dispatcher logs one `log.error` line and returns every tracked
configuration field (sph, sweep, step, modes, volts, lockin, data, hard and
soft config, bootload flag, analysis) byte-for-byte unchanged. -/
theorem set_unknown_key_unchanged (s : ScriptState) (key : String) (val : PyVal)
    (hk : key ∉ set_function_keys) :
    set_ s [(key, val)] =
      .ok (s, [.error "have no var called key of type val!"]) := by
  have h1 : set_one s key val =
      .ok (s, [.error "have no var called key of type val!"]) := by
    unfold set_one
    rw [if_neg (fun hc => hk hc.1)]
  unfold set_
  simp [List.foldlM, h1, Except.map, except_bind_ok]

/-- Witness for C8: the unknown key `foo` against the constructor-default
state. -/
theorem set_unknown_key_unchanged_witness :
    set_ sample_state [("foo", PyVal.dict [])] =
      .ok (sample_state, [.error "have no var called key of type val!"]) :=
  set_unknown_key_unchanged sample_state "foo" (PyVal.dict []) (by decide)
